import Mathlib

/-!
Verification of the listing-page cache-and-paginate pipeline of the Yatube
blog application, together with its custom error-page handlers.

The repository ships its test suite (`posts/tests/test_cache.py`,
`posts/tests/test_views.py`) and the custom error handlers
(`core/views.py`).  The production views, ORM models, paginator wiring and
cache configuration are framework-side or live in files not present here;
those components are modelled from the specification (each such definition
carries a doc comment saying so).  `core/views.py` is embedded directly.
-/

namespace Yatube

/-- A post record, following the spec data model: id (unique), author
(required reference), optional group reference, required text, optional
image reference, creation timestamp. -/
structure Post where
  id : Nat
  author : Nat
  group : Option Nat
  text : String
  image : Option Nat
  created : Nat
deriving DecidableEq, Repr

/-- The Post Store: the collection of post records, in insertion order. -/
abbrev Store := List Post

/-! ## Listing Query (modelled from the spec)

Modelled from the spec: the production `posts/views.py` / `posts/models.py`
are not in the sources; §4.1 says the Listing Query, given an optional
group filter, returns all matching posts ordered by creation time
descending, ties broken by id descending. -/

/-- `a` sorts before `b` in a listing: newer first, ties by larger id. -/
def postBefore (a b : Post) : Bool :=
  b.created < a.created || (b.created == a.created && b.id ≤ a.id)

/-- Insertion step of the newest-first sort. -/
def insertPost (p : Post) : List Post → List Post
  | [] => [p]
  | q :: qs => if postBefore p q then p :: q :: qs else q :: insertPost p qs

/-- Newest-first insertion sort over posts. -/
def sortPosts : List Post → List Post
  | [] => []
  | p :: ps => insertPost p (sortPosts ps)

/-- Whether a post matches an optional group filter (no filter matches
everything). -/
def matchesGroup (g : Option Nat) (p : Post) : Bool :=
  match g with
  | none => true
  | some gid => p.group == some gid

/-- Modelled from the spec: the Listing Query (§4.1) — filter by the
optional group, order newest-first with id-descending tie-break. -/
def listingQuery (s : Store) (g : Option Nat) : List Post :=
  sortPosts (s.filter (matchesGroup g))

/-! ## Paginator (modelled from the spec)

Modelled from the spec: the framework pagination helper used by the views
is not in the sources; §4.2 gives its contract (fixed page size `P`,
1-based requested page `K`, slice `[(K-1)*P, K*P)` clipped to `N`,
`has_next` iff more items follow, `has_previous` iff `K > 1`, out-of-range
and non-numeric page parameters clamped to the last valid page, `N = 0`
yielding one empty page). -/

/-- Number of pages for `n` items at page size `p`: `ceil(n/p)`, but at
least one page so that an empty listing still renders page 1. -/
def numPages (p n : Nat) : Nat :=
  max ((n + p - 1) / p) 1

/-- Items of page `k` (1-based): drop the first `(k-1)*p` items and take
the next `p`. -/
def pageItems (items : List α) (p k : Nat) : List α :=
  (items.drop ((k - 1) * p)).take p

/-- A transient page: the spec data-model `Page` object. -/
structure Page (α : Type) where
  items : List α
  page_number : Nat
  has_next : Bool
  has_previous : Bool
deriving DecidableEq, Repr

/-- Build page `k` of an ordered item sequence at page size `p`. -/
def paginate (items : List α) (p k : Nat) : Page α :=
  { items := pageItems items p k
    page_number := k
    has_next := decide (k < numPages p items.length)
    has_previous := decide (1 < k) }

/-- The `page` query parameter as seen by the view: absent, non-numeric,
or a number. -/
inductive PageParam where
  | absent
  | invalid
  | num (k : Nat)
deriving DecidableEq, Repr

/-- Modelled from the spec: resolution of the raw page parameter (§4.2,
§6) — absent defaults to page 1; non-numeric or out-of-range values are
silently clamped to the nearest valid page, never surfaced as an error. -/
def resolvePage (np : Nat) : PageParam → Nat
  | .absent => 1
  | .invalid => np
  | .num k => if k < 1 then 1 else if np < k then np else k

/-- Paginate with a raw request parameter: clamp, then slice. -/
def getPage (items : List α) (p : Nat) (param : PageParam) : Page α :=
  paginate items p (resolvePage (numPages p items.length) param)

/-- Modelled from the spec: the Listing View (§4.4) — resolve the group
filter, run the Listing Query, run the Paginator on the result. -/
def listingView (s : Store) (g : Option Nat) (p : Nat) (param : PageParam) :
    Page Post :=
  getPage (listingQuery s g) p param

/-! ## Response Cache (modelled from the spec)

Modelled from the spec: the cache backend and its wiring are
framework-side and not in the sources; §4.3 gives the contract of
`get_or_render(key)`: on a miss (or an expired entry) render from the
current store, remember the bytes under the key with expiry `now + TTL`,
and return them; on a hit before expiry return the remembered bytes
unconditionally, without consulting the Post Store; `clear()` drops every
entry immediately.  Rendered bodies are modelled as an abstract byte
list produced by a render function supplied to the cache. -/

/-- Rendered response bodies, as raw bytes. -/
abbrev Bytes := List Nat

/-- One cached response: key (request path + query), rendered bytes, and
the absolute expiry time. -/
structure CacheEntry where
  key : String
  body : Bytes
  expires_at : Nat
deriving DecidableEq, Repr

/-- The Response Cache state: the set of live entries. -/
abbrev Cache := List CacheEntry

/-- Find the entry stored under a key, if any. -/
def lookupEntry (c : Cache) (k : String) : Option CacheEntry :=
  c.find? (fun e => e.key == k)

/-- Store a body under a key (replacing any previous entry for it). -/
def setEntry (c : Cache) (k : String) (b : Bytes) (exp : Nat) : Cache :=
  ⟨k, b, exp⟩ :: c.filter (fun e => !(e.key == k))

/-- Modelled from the spec: `clear()` removes all entries regardless of
key, immediately (§4.3). -/
def clearCache (_ : Cache) : Cache := []

/-- Expiry time of the entry under a key (0 when absent). -/
def entryExpiry (c : Cache) (k : String) : Nat :=
  match lookupEntry c k with
  | some e => e.expires_at
  | none => 0

/-- Modelled from the spec: `get_or_render(key)` (§4.3).  `render` is the
render pipeline (Listing Query → Paginator → template rendering) applied
to the current store; a valid entry is served verbatim without invoking
it. -/
def getOrRender (ttl : Nat) (render : Store → Bytes) (c : Cache)
    (k : String) (now : Nat) (s : Store) : Bytes × Cache :=
  match lookupEntry c k with
  | some e =>
      if now < e.expires_at then (e.body, c)
      else
        let b := render s
        (b, setEntry c k b (now + ttl))
  | none =>
      let b := render s
      (b, setEntry c k b (now + ttl))

end Yatube

namespace Core

/-! ## `core/views.py`, embedded directly

The error handlers are in the sources.  The framework collaborator
`render(request, template_name, context=None, status=None)` returns a
response carrying the template, the context and the given status, with
status defaulting to 200 when not passed. -/

/-- An incoming HTTP request (only the path matters to these handlers). -/
structure HttpRequest where
  path : String
deriving DecidableEq, Repr

/-- A rendered HTTP response: status code, template used, template
context (string-valued entries suffice for these handlers). -/
structure HttpResponse where
  status : Nat
  template : String
  context : List (String × String)
deriving DecidableEq, Repr

/-- The framework's `render` shortcut: builds a response from a template
and context; a status of `none` (not passed) defaults to 200. -/
def render (_req : HttpRequest) (template : String)
    (context : List (String × String)) (status : Option Nat) :
    HttpResponse :=
  { status := status.getD 200, template := template, context := context }

/-- `page_not_found(request, exception)`: renders `core/404.html` with
the requested path in the context, status 404. -/
def page_not_found (req : HttpRequest) (_exc : Nat) : HttpResponse :=
  render req "core/404.html" [("path", req.path)] (some 404)

/-- `server_error(request)`: renders `core/500.html` with status 500. -/
def server_error (req : HttpRequest) : HttpResponse :=
  render req "core/500.html" [] (some 500)

/-- `permission_denied_view(request, exception)`: renders
`core/403csrf.html` passing no context and no status. -/
def permission_denied_view (req : HttpRequest) (_exc : Nat) : HttpResponse :=
  render req "core/403csrf.html" [] none

/-- `permission_denied(request, exception)`: renders `core/500.html`
with status 403. -/
def permission_denied (req : HttpRequest) (_exc : Nat) : HttpResponse :=
  render req "core/500.html" [] (some 403)

/-- Modelled from the spec: routing is an external collaborator; a
request whose path matches no route is dispatched to the not-found
handler with no Response Cache interaction (§7 taxonomy (a)). -/
def dispatchUnknownRoute (c : Yatube.Cache) (req : HttpRequest) :
    HttpResponse × Yatube.Cache :=
  (page_not_found req 0, c)

end Core

namespace Yatube

/-! ## Sorting and paginator lemmas -/

/-- Inserting a post grows the list by one. -/
theorem length_insertPost (p : Post) (l : List Post) :
    (insertPost p l).length = l.length + 1 := by
  induction l with
  | nil => rfl
  | cons q qs ih =>
      unfold insertPost
      by_cases h : postBefore p q
      · simp [h]
      · simp [h, ih]

/-- The newest-first sort preserves length. -/
theorem length_sortPosts (l : List Post) :
    (sortPosts l).length = l.length := by
  induction l with
  | nil => rfl
  | cons p ps ih => simp [sortPosts, length_insertPost, ih]

/-- Membership after an insertion step. -/
theorem mem_insertPost (q p : Post) (l : List Post) :
    q ∈ insertPost p l ↔ q = p ∨ q ∈ l := by
  induction l with
  | nil => simp [insertPost]
  | cons a as ih =>
      unfold insertPost
      by_cases h : postBefore p a
      · simp [h, List.mem_cons]
      · simp [h, List.mem_cons, ih]
        tauto

/-- The newest-first sort preserves membership. -/
theorem mem_sortPosts (q : Post) (l : List Post) :
    q ∈ sortPosts l ↔ q ∈ l := by
  induction l with
  | nil => simp [sortPosts]
  | cons p ps ih => simp [sortPosts, mem_insertPost, ih, List.mem_cons]

/-- `ceil(n/p) * p` covers all `n` items. -/
theorem ceil_mul_ge (p n : Nat) (hp : 0 < p) :
    n ≤ ((n + p - 1) / p) * p := by
  have h1 := Nat.div_add_mod (n + p - 1) p
  have h2 := Nat.mod_lt (n + p - 1) hp
  rw [Nat.mul_comm]
  omega

/-- A 1-based page `k` has a page after it exactly when `k * p` items do
not exhaust the sequence. -/
theorem lt_numPages_iff (p n k : Nat) (hp : 0 < p) (hk : 1 ≤ k) :
    k < numPages p n ↔ k * p < n := by
  unfold numPages
  rcases Nat.eq_zero_or_pos n with hn | hn
  · subst hn
    rw [Nat.div_eq_of_lt (show 0 + p - 1 < p by omega)]
    rw [Nat.zero_max]
    constructor
    · intro h
      omega
    · intro h
      exact absurd h (Nat.not_lt_zero _)
  · have hcov := ceil_mul_ge p n hp
    have hqp : ((n + p - 1) / p) * p ≤ n + p - 1 :=
      Nat.div_mul_le_self _ _
    have hq1 : 1 ≤ (n + p - 1) / p :=
      (Nat.one_le_div_iff hp).mpr (by omega)
    generalize (n + p - 1) / p = Q at hcov hqp hq1
    rw [Nat.max_eq_left hq1]
    constructor
    · intro hlt
      obtain ⟨q1, rfl⟩ : ∃ q1, Q = q1 + 1 := ⟨Q - 1, by omega⟩
      have hm : k * p ≤ q1 * p := mul_le_mul_right' (by omega) p
      have hstep : q1 * p + p ≤ n + p - 1 := by
        rw [← Nat.succ_mul]
        exact hqp
      omega
    · intro hlt
      by_contra hge
      push_neg at hge
      have h1 : Q * p ≤ k * p := mul_le_mul_right' hge p
      omega

/-- Concatenating the first `n` page slices recovers the first `n * p`
items. -/
theorem flatten_pageItems {α : Type} (l : List α) (p : Nat) (n : Nat) :
    ((List.range n).map (fun i => pageItems l p (i + 1))).flatten
      = l.take (n * p) := by
  induction n with
  | zero => simp
  | succ m ih =>
      rw [List.range_succ, List.map_append, List.flatten_append, ih]
      simp only [List.map_cons, List.map_nil, List.flatten_cons,
        List.flatten_nil, List.append_nil, pageItems, Nat.add_sub_cancel]
      rw [Nat.succ_mul, List.take_add]

/-! ## Cache lemmas -/

/-- Looking up a key just stored finds exactly the stored entry. -/
theorem lookupEntry_setEntry_self (c : Cache) (k : String) (b : Bytes)
    (exp : Nat) : lookupEntry (setEntry c k b exp) k = some ⟨k, b, exp⟩ := by
  simp [lookupEntry, setEntry]

/-- After any `getOrRender` call, the cache holds an entry under the key
whose body is exactly the bytes that were returned. -/
theorem getOrRender_lookup (ttl : Nat) (r : Store → Bytes) (c : Cache)
    (k : String) (t : Nat) (s : Store) :
    ∃ e, lookupEntry (getOrRender ttl r c k t s).2 k = some e ∧
      e.body = (getOrRender ttl r c k t s).1 := by
  unfold getOrRender
  cases h : lookupEntry c k with
  | none =>
      exact ⟨⟨k, r s, t + ttl⟩, by simp [lookupEntry_setEntry_self], rfl⟩
  | some e =>
      by_cases hv : t < e.expires_at
      · exact ⟨e, by simp [hv, h], by simp [hv]⟩
      · exact ⟨⟨k, r s, t + ttl⟩,
          by simp [hv, lookupEntry_setEntry_self], by simp [hv]⟩

/-- Claim C1: for every cache key and every sequence of Post Store
mutations (the second fetch sees an arbitrary store `s2`, including one
with all posts deleted), a second fetch before the cached entry's expiry
returns exactly the bytes of the first fetch — the entry is served
verbatim without re-querying the Post Store; moreover, on a cold key the
entry produced by the first fetch expires exactly at `t1 + TTL`, so "before
expiry" is "within the TTL" of the render. -/
theorem cached_entry_served_verbatim (ttl : Nat) (r : Store → Bytes)
    (c : Cache) (k : String) (t1 t2 : Nat) (s1 s2 : Store)
    (hvalid : t2 < entryExpiry (getOrRender ttl r c k t1 s1).2 k) :
    (getOrRender ttl r (getOrRender ttl r c k t1 s1).2 k t2 s2).1
      = (getOrRender ttl r c k t1 s1).1
    ∧ (lookupEntry c k = none →
        entryExpiry (getOrRender ttl r c k t1 s1).2 k = t1 + ttl) := by
  obtain ⟨e, he, hb⟩ := getOrRender_lookup ttl r c k t1 s1
  have hex : entryExpiry (getOrRender ttl r c k t1 s1).2 k = e.expires_at := by
    simp [entryExpiry, he]
  rw [hex] at hvalid
  refine ⟨?_, ?_⟩
  · conv_lhs => rw [getOrRender]
    simp [he, hvalid, hb]
  · intro hnone
    simp [getOrRender, hnone, entryExpiry, lookupEntry_setEntry_self]

/-- Concrete instance of `cached_entry_served_verbatim`: a post is
rendered at time 0 with TTL 60, every post is then deleted, and the fetch
at time 10 still returns the stale body. -/
theorem cached_entry_served_verbatim_witness :
    10 < entryExpiry (getOrRender 60 (fun s => [s.length]) [] "/" 0
        [⟨1, 1, none, "t", none, 0⟩]).2 "/"
    ∧ ((getOrRender 60 (fun s => [s.length])
          (getOrRender 60 (fun s => [s.length]) [] "/" 0
            [⟨1, 1, none, "t", none, 0⟩]).2 "/" 10 []).1
        = (getOrRender 60 (fun s => [s.length]) [] "/" 0
            [⟨1, 1, none, "t", none, 0⟩]).1
      ∧ (lookupEntry [] "/" = none →
          entryExpiry (getOrRender 60 (fun s => [s.length]) [] "/" 0
            [⟨1, 1, none, "t", none, 0⟩]).2 "/" = 0 + 60)) :=
  ⟨by decide,
   cached_entry_served_verbatim 60 (fun s => [s.length]) [] "/" 0 10
     [⟨1, 1, none, "t", none, 0⟩] [] (by decide)⟩

/-- Claim C2: `clear()` followed by a fetch re-renders from the current
Post Store state: the returned bytes are exactly the render of the
current store, hence they differ from any stale cached bytes whenever the
store's render has changed. -/
theorem fresh_after_clear (ttl : Nat) (r : Store → Bytes) (c : Cache)
    (k : String) (t : Nat) (s : Store) (stale : Bytes)
    (hdiff : r s ≠ stale) :
    (getOrRender ttl r (clearCache c) k t s).1 = r s
    ∧ (getOrRender ttl r (clearCache c) k t s).1 ≠ stale := by
  have h : (getOrRender ttl r (clearCache c) k t s).1 = r s := by
    simp [getOrRender, clearCache, lookupEntry]
  exact ⟨h, h ▸ hdiff⟩

/-- Claim C3: for a positive page size and a 1-based page index, the page
holds exactly the items of the half-open range `[(k-1)*p, k*p)` clipped to
the sequence, `has_next` holds exactly when `k*p` items do not exhaust the
sequence, `has_previous` exactly when `k > 1`; an empty sequence yields an
empty page with `has_next` false and, on its only valid page,
`has_previous` false. -/
theorem paginate_slice_spec {α : Type} (items : List α) (p k : Nat)
    (hp : 0 < p) (hk : 1 ≤ k) :
    (paginate items p k).items = (items.take (k * p)).drop ((k - 1) * p)
    ∧ ((paginate items p k).has_next = true ↔ k * p < items.length)
    ∧ ((paginate items p k).has_previous = true ↔ 1 < k)
    ∧ (items = [] →
        (paginate items p k).items = []
        ∧ (paginate items p k).has_next = false
        ∧ (k = 1 → (paginate items p k).has_previous = false)) := by
  refine ⟨?_, ?_, ?_, ?_⟩
  · rw [List.drop_take]
    have hkp : k * p - (k - 1) * p = p := by
      obtain ⟨k1, rfl⟩ : ∃ k1, k = k1 + 1 := ⟨k - 1, by omega⟩
      simp [Nat.succ_mul]
    rw [hkp]
    rfl
  · simp only [paginate, decide_eq_true_eq]
    exact lt_numPages_iff p items.length k hp hk
  · simp [paginate]
  · intro h
    subst h
    have h0 : numPages p 0 = 1 := by
      unfold numPages
      rw [Nat.div_eq_of_lt (show 0 + p - 1 < p by omega)]
      rw [Nat.zero_max]
    refine ⟨?_, ?_, ?_⟩
    · simp [paginate, pageItems]
    · simp only [paginate, List.length_nil, h0, decide_eq_false_iff_not]
      omega
    · intro hk1
      subst hk1
      simp [paginate]

/-- Concrete instance of `paginate_slice_spec` at five items, page size 2,
page 2. -/
theorem paginate_slice_spec_witness :
    0 < 2 ∧ 1 ≤ 2
    ∧ ((paginate [10, 20, 30, 40, 50] 2 2).items
        = (([10, 20, 30, 40, 50].take (2 * 2)).drop ((2 - 1) * 2))
      ∧ ((paginate [10, 20, 30, 40, 50] 2 2).has_next = true
          ↔ 2 * 2 < [10, 20, 30, 40, 50].length)
      ∧ ((paginate [10, 20, 30, 40, 50] 2 2).has_previous = true ↔ 1 < 2)
      ∧ ([10, 20, 30, 40, 50] = ([] : List Nat) →
          (paginate [10, 20, 30, 40, 50] 2 2).items = []
          ∧ (paginate [10, 20, 30, 40, 50] 2 2).has_next = false
          ∧ (2 = 1 →
              (paginate [10, 20, 30, 40, 50] 2 2).has_previous = false))) :=
  ⟨by decide, by decide,
   paginate_slice_spec [10, 20, 30, 40, 50] 2 2 (by decide) (by decide)⟩

/-- Claim C4: an out-of-range numeric page parameter (beyond
`ceil(N/P)`) or a non-numeric one is silently clamped: the Paginator
returns exactly the last valid page, never an error (the pipeline is a
total function). -/
theorem page_param_clamped {α : Type} (items : List α) (p : Nat)
    (param : PageParam)
    (hbad : param = PageParam.invalid
      ∨ ∃ m, param = PageParam.num m
          ∧ (items.length + p - 1) / p < m) :
    getPage items p param = paginate items p (numPages p items.length) := by
  rcases hbad with h | ⟨m, hm, hlt⟩
  · subst h
    rfl
  · subst hm
    simp only [getPage, resolvePage]
    have h1 : numPages p items.length ≤ m := by
      unfold numPages
      generalize (items.length + p - 1) / p = Q at hlt
      omega
    have h2 : ¬ m < 1 := by
      have h3 : 1 ≤ numPages p items.length := by
        unfold numPages
        omega
      omega
    rw [if_neg h2]
    by_cases h3 : numPages p items.length < m
    · rw [if_pos h3]
    · rw [if_neg h3]
      have hEq : m = numPages p items.length := by omega
      rw [hEq]

/-- Concrete instance of `page_param_clamped`: page 99 of a three-item
listing at page size 2 yields the last valid page. -/
theorem page_param_clamped_witness :
    (PageParam.num 99 = PageParam.invalid
        ∨ ∃ m, PageParam.num 99 = PageParam.num m
            ∧ ([1, 2, 3].length + 2 - 1) / 2 < m)
    ∧ getPage [1, 2, 3] 2 (PageParam.num 99)
        = paginate [1, 2, 3] 2 (numPages 2 [1, 2, 3].length) :=
  ⟨Or.inr ⟨99, rfl, by decide⟩,
   page_param_clamped [1, 2, 3] 2 (PageParam.num 99)
     (Or.inr ⟨99, rfl, by decide⟩)⟩

/-- Claim C5: with exactly `PAGE_SIZE + 3` posts in the store (and a page
size of at least 3, as the configured constant is), page 1 of the home
listing holds exactly `PAGE_SIZE` items and page 2 exactly 3. -/
theorem listing_page_sizes (s : Store) (p : Nat) (hp : 3 ≤ p)
    (hlen : s.length = p + 3) :
    (listingView s none p (PageParam.num 1)).items.length = p
    ∧ (listingView s none p (PageParam.num 2)).items.length = 3 := by
  have hp0 : 0 < p := by omega
  have hN : (listingQuery s none).length = p + 3 := by
    rw [listingQuery, length_sortPosts]
    rw [show s.filter (matchesGroup none) = s.filter (fun _ => true) from rfl]
    rw [List.filter_true]
    exact hlen
  have hnp2 : numPages p (listingQuery s none).length = 2 := by
    rw [hN]
    unfold numPages
    rw [show (p + 3 + p - 1) / p = 2 from
      Nat.div_eq_of_lt_le (by omega) (by omega)]
    rfl
  constructor
  · show (getPage (listingQuery s none) p (PageParam.num 1)).items.length = p
    simp only [getPage, resolvePage, hnp2]
    norm_num
    simp [paginate, pageItems, List.length_take, List.length_drop, hN]
  · show (getPage (listingQuery s none) p (PageParam.num 2)).items.length = 3
    simp only [getPage, resolvePage, hnp2]
    norm_num
    simp [paginate, pageItems, List.length_take, List.length_drop, hN]
    omega

/-- Concrete instance of `listing_page_sizes`: thirteen posts at page
size 10 give pages of 10 and 3 items. -/
theorem listing_page_sizes_witness :
    3 ≤ 10
    ∧ ((List.range 13).map
        (fun i => (⟨i, 1, none, "t", none, i⟩ : Post))).length = 10 + 3
    ∧ ((listingView ((List.range 13).map
          (fun i => (⟨i, 1, none, "t", none, i⟩ : Post))) none 10
          (PageParam.num 1)).items.length = 10
      ∧ (listingView ((List.range 13).map
          (fun i => (⟨i, 1, none, "t", none, i⟩ : Post))) none 10
          (PageParam.num 2)).items.length = 3) :=
  ⟨by decide, by decide,
   listing_page_sizes ((List.range 13).map
     (fun i => (⟨i, 1, none, "t", none, i⟩ : Post))) 10 (by decide)
     (by decide)⟩

/-- Claim C6: every page holds at most `p` items, and concatenating the
item slices of pages `1 .. ceil(N/p)` reproduces the full ordered input —
nothing duplicated, nothing omitted. -/
theorem paginate_partition {α : Type} (items : List α) (p k : Nat)
    (hp : 0 < p) :
    (paginate items p k).items.length ≤ p
    ∧ ((List.range ((items.length + p - 1) / p)).map
        (fun i => (paginate items p (i + 1)).items)).flatten = items := by
  constructor
  · simp only [paginate, pageItems, List.length_take]
    omega
  · show ((List.range ((items.length + p - 1) / p)).map
        (fun i => pageItems items p (i + 1))).flatten = items
    rw [flatten_pageItems]
    exact List.take_of_length_le (ceil_mul_ge p items.length hp)

/-- Concrete instance of `paginate_partition`: seven items at page size 3
(page 2 has at most 3 items; pages 1, 2, 3 concatenate to the input). -/
theorem paginate_partition_witness :
    0 < 3
    ∧ ((paginate [10, 20, 30, 40, 50, 60, 70] 3 2).items.length ≤ 3
      ∧ ((List.range (([10, 20, 30, 40, 50, 60, 70].length + 3 - 1) / 3)).map
          (fun i => (paginate [10, 20, 30, 40, 50, 60, 70] 3 (i + 1)).items)).flatten
        = [10, 20, 30, 40, 50, 60, 70]) :=
  ⟨by decide, paginate_partition [10, 20, 30, 40, 50, 60, 70] 3 2 (by decide)⟩

/-- Claim C7: a post whose group reference does not match a group filter
never appears in that group's listing — in particular a post of Group A,
or of no group, is absent from Group B's page. -/
theorem group_filter_excludes (s : Store) (b : Nat) (post : Post)
    (hpost : post.group ≠ some b) :
    post ∉ listingQuery s (some b) := by
  intro hmem
  rw [listingQuery, mem_sortPosts] at hmem
  have hmg := List.of_mem_filter hmem
  simp [matchesGroup] at hmg
  exact hpost hmg

/-- Concrete instance of `group_filter_excludes`: a post of group 1 is
absent from the listing filtered to group 2. -/
theorem group_filter_excludes_witness :
    (⟨1, 1, some 1, "a", none, 0⟩ : Post).group ≠ some 2
    ∧ (⟨1, 1, some 1, "a", none, 0⟩ : Post) ∉
        listingQuery [⟨1, 1, some 1, "a", none, 0⟩] (some 2) :=
  ⟨by decide,
   group_filter_excludes [⟨1, 1, some 1, "a", none, 0⟩] 2
     ⟨1, 1, some 1, "a", none, 0⟩ (by decide)⟩

/-- Concrete instance of `fresh_after_clear`: a stale body `[1]` (one
post) sits in the cache; after `clear()` the fetch over the now-empty
store returns `[0]`, which differs from the stale bytes. -/
theorem fresh_after_clear_witness :
    (fun (s : Store) => [s.length]) [] ≠ [1]
    ∧ ((getOrRender 60 (fun s => [s.length])
          (clearCache [⟨"/", [1], 60⟩]) "/" 10 []).1
        = (fun (s : Store) => [s.length]) []
      ∧ (getOrRender 60 (fun s => [s.length])
          (clearCache [⟨"/", [1], 60⟩]) "/" 10 []).1 ≠ [1]) :=
  ⟨by decide,
   fresh_after_clear 60 (fun s => [s.length]) [⟨"/", [1], 60⟩] "/" 10 []
     [1] (by decide)⟩

end Yatube

namespace Core

/-! ## Error-handler theorems -/

/-- Claim C8: a request to a route that does not exist yields HTTP 404
rendered with the custom `core/404.html` template, and the Response Cache
is not touched. -/
theorem unknown_route_404 (c : Yatube.Cache) (req : HttpRequest) :
    (dispatchUnknownRoute c req).1.status = 404
    ∧ (dispatchUnknownRoute c req).1.template = "core/404.html"
    ∧ (dispatchUnknownRoute c req).2 = c :=
  ⟨rfl, rfl, rfl⟩

/-- Claim C9, counterexample: the CSRF failure handler
`permission_denied_view` renders `core/403csrf.html` without passing a
status, so the response carries the framework default 200, not 403. -/
theorem csrf_fault_status_counterexample :
    ¬ (permission_denied_view ⟨"/any/"⟩ 0).status = 403 := by
  decide

/-- Claim C9, amended: the `permission_denied` handler returns HTTP 403
(rendering `core/500.html`), while the CSRF handler
`permission_denied_view` renders `core/403csrf.html` with the default
status 200. -/
theorem permission_fault_statuses (req : HttpRequest) (exc : Nat) :
    (permission_denied req exc).status = 403
    ∧ (permission_denied_view req exc).status = 200
    ∧ (permission_denied_view req exc).template = "core/403csrf.html" :=
  ⟨rfl, rfl, rfl⟩

/-- Claim C10: the not-found handler places the requested path in the
template context under the key `path`. -/
theorem not_found_echoes_path (req : HttpRequest) (exc : Nat) :
    ((page_not_found req exc).context).lookup "path" = some req.path := by
  simp [page_not_found, render]

end Core
